import Mathlib

/-!
Verification of the triton shard data plane (src/lib/graph) against its
specification.  The C++ sources are shallowly embedded: every `def` below
mirrors one function of `Shard.cpp`, `Node.cpp`, `Relationship.cpp` or
`Types.cpp`, with machinery translated as follows.

* `std::vector<T>` becomes `List T`; `vec.at i` reads become `List.getD`
  with the zero entity as default (all reads proved about are in range),
  and writes become `List.set`.
* `std::map` / `tsl::sparse_map` become association lists.  Both container
  families insert-without-overwrite (`emplace` / `insert`), which
  `bagInsert` mirrors; all claims are stated through `bagFind`, which is
  insensitive to the bucket order that distinguishes the two containers.
* `Roaring64Map` (the deleted-slot bitmaps) becomes a duplicate-free
  `List Nat` with `rAdd` / `rRemove` / `rMin` mirroring
  `add` / `remove` / `minimum`.
* 64-bit ids stay `Nat`: every id the embedded operations construct is
  `internal <<< 8 + shard` with `internal` bounded by a vector length, far
  below `2^64`, so no wrap-around arithmetic arises.
* JSON payload parsing is performed by the external `simdjson` library
  (the spec keeps it out of the core); a payload is therefore embedded
  pre-tokenised as `Payload` — empty string, parse failure, or a parsed
  object — and `convertProperties` is translated from the source.
  Floating-point (`DOUBLE`) leaves are outside the embedding; no claim
  under examination depends on them.
-/

namespace Triton

/-- Association-list lookup: the value stored under `k`, if any
(`map.find(k)` in the C++ sources). -/
def bagFind {α : Type} : List (String × α) → String → Option α
  | [], _ => none
  | (k, v) :: rest, key => if k = key then some v else bagFind rest key

/-- `map.insert({k, v})` / `map.emplace(k, v)`: both C++ calls are
no-ops when the key is already present. -/
def bagInsert {α : Type} (m : List (String × α)) (k : String) (v : α) :
    List (String × α) :=
  if (bagFind m k).isSome then m else m ++ [(k, v)]

/-- Replace the value stored under `k`, when present
(`map.at(k) = v` / mutation through a found iterator). -/
def bagUpdate {α : Type} : List (String × α) → String → α → List (String × α)
  | [], _, _ => []
  | (k, v) :: rest, key, nv =>
    if k = key then (k, nv) :: rest else (k, v) :: bagUpdate rest key nv

/-- `map.erase(k)`. -/
def bagErase {α : Type} (m : List (String × α)) (key : String) :
    List (String × α) :=
  m.filter (fun kv => kv.1 ≠ key)

/-- Lookup in a `Nat`-keyed association list (`std::map<uint16_t, …>` or
`std::unordered_map<uint16_t, …>`). -/
def natFind {α : Type} : List (Nat × α) → Nat → Option α
  | [], _ => none
  | (k, v) :: rest, key => if k = key then some v else natFind rest key

/-- `map.insert({k, v})` on a `Nat`-keyed map: no-op when present. -/
def natInsert {α : Type} (m : List (Nat × α)) (k : Nat) (v : α) :
    List (Nat × α) :=
  if (natFind m k).isSome then m else m ++ [(k, v)]

/-- Replace the value stored under `k`, when present (`map.at(k) = v`). -/
def natUpdate {α : Type} : List (Nat × α) → Nat → α → List (Nat × α)
  | [], _, _ => []
  | (k, v) :: rest, key, nv =>
    if k = key then (k, nv) :: rest else (k, v) :: natUpdate rest key nv

/-- `Roaring64Map.add`: the bitmap is a set, so adding a present element
is a no-op. -/
def rAdd (s : List Nat) (x : Nat) : List Nat :=
  if x ∈ s then s else s ++ [x]

/-- `Roaring64Map.remove`. -/
def rRemove (s : List Nat) (x : Nat) : List Nat :=
  s.filter (fun y => y ≠ x)

/-- `Roaring64Map.minimum` on a non-empty bitmap (0 as the out-of-domain
default for the empty bitmap, which the callers guard against). -/
def rMin : List Nat → Nat
  | [] => 0
  | x :: xs => xs.foldl Nat.min x

/-- Property values (`std::any` payloads restricted to the tags the engine
stores): string, int64, boolean, nested bag, and the homogeneous arrays
produced by `convertProperties`. -/
inductive PVal where
  | pstr (s : String)
  | pint (i : Int)
  | pbool (b : Bool)
  | pobj (m : List (String × PVal))
  | pints (l : List Int)
  | pstrs (l : List String)
  | pbools (l : List Bool)
deriving Repr

mutual
/-- A parsed-JSON leaf as `simdjson` tags it; a document object is a
`JObj`, the key/value sequence in document order (a mutual inductive
rather than a nested list, so the conversion below is structurally
recursive). -/
inductive JVal where
  | jint (i : Int)
  | juint (n : Nat)
  | jstr (s : String)
  | jbool (b : Bool)
  | jnull
  | jobj (o : JObj)
  | jintArr (l : List Int)
  | juintArr (l : List Nat)
  | jstrArr (l : List String)
  | jboolArr (l : List Bool)
  | jnullArr
  | jobjArr
  | jemptyArr

/-- The key/value entries of a parsed JSON object, in document order. -/
inductive JObj where
  | nil
  | cons (key : String) (v : JVal) (rest : JObj)
end

/-- `static_cast<std::make_signed_t<uint64_t>>`: two's-complement
narrowing of a 64-bit unsigned value to int64. -/
def toSigned64 (n : Nat) : Int :=
  if n < 2 ^ 63 then (n : Int) else (n : Int) - 2 ^ 64

/-- A property payload string as the core sees it after the external JSON
parse: the empty string, a parse failure (including non-object documents),
or a parsed object. -/
inductive Payload where
  | empty
  | malformed
  | obj (o : JObj)

mutual
/-- `Shard::convertProperties`: fold the parsed object into `values`,
one entry at a time. -/
def convertProperties (values : List (String × PVal)) :
    JObj → List (String × PVal)
  | .nil => values
  | .cons property v rest =>
    convertProperties (convertEntry values property v) rest

/-- The `switch (value.type())` body of `Shard::convertProperties`:
insert the entry without overwrite, dropping nulls, narrowing unsigned
integers, recursing into nested objects, and keeping only homogeneous
arrays of supported leaves (arrays of arrays or of objects are
dropped). -/
def convertEntry (values : List (String × PVal)) (property : String) :
    JVal → List (String × PVal)
  | .jint i => bagInsert values property (.pint i)
  | .juint n => bagInsert values property (.pint (toSigned64 n))
  | .jstr s => bagInsert values property (.pstr s)
  | .jbool b => bagInsert values property (.pbool b)
  | .jnull => values
  | .jobj o => bagInsert values property (.pobj (convertProperties [] o))
  | .jintArr l => bagInsert values property (.pints l)
  | .juintArr l => bagInsert values property (.pints (l.map toSigned64))
  | .jstrArr l => bagInsert values property (.pstrs l)
  | .jboolArr l => bagInsert values property (.pbools l)
  | .jnullArr => values
  | .jobjArr => values
  | .jemptyArr => values
end

/-- Run the external parse and, on success, `convertProperties` seeded
with `values`; `none` is the `return 0` / `return false` parse-error
branch of the callers. -/
def parseInto (values : List (String × PVal)) : Payload →
    Option (List (String × PVal))
  | .empty => some values
  | .malformed => none
  | .obj o => some (convertProperties values o)

/-- The type interner (`Types.cpp`): string↔id maps plus the per-type
bitmap of external ids. -/
structure Types where
  type_to_id : List (String × Nat)
  id_to_type : List (Nat × String)
  ids : List (Nat × List Nat)
deriving Repr

/-- `Types::Types()`: id 0 bound to the empty string. -/
def Types.init : Types :=
  { type_to_id := [("", 0)], id_to_type := [(0, "")], ids := [(0, [])] }

/-- `Types::getTypeId`: 0 when the name is unknown. -/
def Types.getTypeId (t : Types) (token : String) : Nat :=
  (bagFind t.type_to_id token).getD 0

/-- `Types::getType`: the empty string when the id is unknown. -/
def Types.getType (t : Types) (type_id : Nat) : String :=
  (natFind t.id_to_type type_id).getD ""

/-- `Types::ValidTypeId`. -/
def Types.ValidTypeId (t : Types) (type_id : Nat) : Bool :=
  0 < type_id && type_id < t.id_to_type.length

/-- `Types::insertOrGetTypeId`. -/
def Types.insertOrGetTypeId (t : Types) (token : String) : Types × Nat :=
  match bagFind t.type_to_id token with
  | some token_id => (t, token_id)
  | none =>
    let token_id := t.type_to_id.length
    ({ type_to_id := bagInsert t.type_to_id token token_id
       id_to_type := natInsert t.id_to_type token_id token
       ids := natInsert t.ids token_id [] }, token_id)

/-- `Types::addId`. -/
def Types.addId (t : Types) (type_id : Nat) (id : Nat) : Types × Bool :=
  if t.ValidTypeId type_id then
    let bitmap := rAdd ((natFind t.ids type_id).getD []) id
    ({ t with ids := natUpdate t.ids type_id bitmap }, true)
  else (t, false)

/-- `Types::removeId`. -/
def Types.removeId (t : Types) (type_id : Nat) (id : Nat) : Types × Bool :=
  if t.ValidTypeId type_id then
    let bitmap := rRemove ((natFind t.ids type_id).getD []) id
    ({ t with ids := natUpdate t.ids type_id bitmap }, true)
  else (t, false)

/-- `Types::addTypeId`: install a broadcast `(name, id)` binding unless
either half is already bound.  Translated exactly, including the `return
false` that ends the successful-insert branch. -/
def Types.addTypeId (t : Types) (token : String) (token_id : Nat) :
    Types × Bool :=
  if (bagFind t.type_to_id token).isSome then
    (t, false)
  else if (natFind t.id_to_type token_id).isSome then
    (t, false)
  else
    ({ type_to_id := bagInsert t.type_to_id token token_id
       id_to_type := natInsert t.id_to_type token_id token
       ids := natInsert t.ids token_id [] }, false)

/-- A node record (`Node.h`): fixed header plus the ordered property
vector.  The default constructor is the zero entity. -/
structure Node where
  id : Nat := 0
  type_id : Nat := 0
  key : String := ""
  properties : List (String × PVal) := []
deriving Repr

/-- A relationship record (`Relationship.h`). -/
structure Relationship where
  id : Nat := 0
  starting_node_id : Nat := 0
  ending_node_id : Nat := 0
  type : Nat := 0
  properties : List (String × PVal) := []
deriving Repr

/-- `Node::getProperties` / `Relationship::getProperties`: rebuild a
`std::map` from the property vector via non-overwriting insert. -/
def getPropertyMap (properties : List (String × PVal)) :
    List (String × PVal) :=
  properties.foldl (fun acc kv => bagInsert acc kv.1 kv.2) []

/-- The erase–remove idiom of `Node::deleteProperty` /
`Relationship::deleteProperty`, with iterators as indices into the
vector: `remove_if` partitions the survivors to the front and returns the
index past them; `erase(first, end)` drops the tail and returns `first`,
which in the shrunk vector is its new `end()`.  The C++ then compares
that result against `end()`. -/
def deletePropertyVec (properties : List (String × PVal)) (property : String) :
    List (String × PVal) × Bool :=
  let survivors := properties.filter (fun kv => kv.1 ≠ property)
  let erased := survivors.length
  let endIdx := survivors.length
  (survivors, decide (erased ≠ endIdx))

/-- `Node::setProperty` / `Relationship::setProperty`: delete then
append. -/
def setPropertyVec (properties : List (String × PVal)) (property : String)
    (value : PVal) : List (String × PVal) :=
  (deletePropertyVec properties property).1 ++ [(property, value)]

/-- `Node::setProperties` / `Relationship::setProperties`: clear the
vector and refill it from the map. -/
def setPropertiesVec (new_properties : List (String × PVal)) :
    List (String × PVal) :=
  new_properties

/-- An adjacency entry (`Ids.h`): the peer node and the relationship. -/
structure Ids where
  node_id : Nat
  rel_id : Nat
deriving Repr, DecidableEq

/-- A per-type adjacency group (`Group.h`). -/
structure Group where
  rel_type_id : Nat
  ids : List Ids
deriving Repr, DecidableEq

/-- `find_if` a group by type and append the entry to it, or
`emplace_back` a fresh group: the shared shape of every adjacency
insertion in `Shard.cpp`. -/
def addToGroups (gs : List Group) (rel_type : Nat) (entry : Ids) :
    List Group :=
  match gs with
  | [] => [⟨rel_type, [entry]⟩]
  | g :: rest =>
    if g.rel_type_id = rel_type then ⟨g.rel_type_id, g.ids ++ [entry]⟩ :: rest
    else g :: addToGroups rest rel_type entry

/-- `find_if` the first group of the given type and rewrite it in place;
no group, no change: the shared shape of every adjacency removal. -/
def updateFirstGroup (gs : List Group) (rel_type : Nat)
    (f : List Ids → List Ids) : List Group :=
  match gs with
  | [] => []
  | g :: rest =>
    if g.rel_type_id = rel_type then ⟨g.rel_type_id, f g.ids⟩ :: rest
    else g :: updateFirstGroup rest rel_type f

/-- Per-shard state (`Shard.h` private fields).  The Lua machinery, file
names and locks carry no data-plane state and are omitted. -/
structure Shard where
  cpus : Nat
  shard_id : Nat
  node_keys : List (String × List (String × Nat))
  nodes : List Node
  relationships : List Relationship
  outgoing_relationships : List (List Group)
  incoming_relationships : List (List Group)
  deleted_nodes : List Nat
  deleted_relationships : List Nat
  node_types : Types
  relationship_types : Types
deriving Repr

instance : Inhabited Shard :=
  ⟨{ cpus := 0, shard_id := 0, node_keys := [], nodes := [],
     relationships := [], outgoing_relationships := [],
     incoming_relationships := [], deleted_nodes := [],
     deleted_relationships := [], node_types := Types.init,
     relationship_types := Types.init }⟩

/-- `Shard::Shard(cpus)`: index 0 of every vector holds the zero
entity. -/
def Shard.init (cpus shard_id : Nat) : Shard :=
  { cpus := cpus, shard_id := shard_id, node_keys := [],
    nodes := [{}], relationships := [{}],
    outgoing_relationships := [[]], incoming_relationships := [[]],
    deleted_nodes := [], deleted_relationships := [],
    node_types := Types.init, relationship_types := Types.init }

/-- `SHIFTED_BITS = 8`: `Shard::externalToInternal`. -/
def externalToInternal (id : Nat) : Nat := id / 256

/-- `Shard::internalToExternal`. -/
def Shard.internalToExternal (s : Shard) (internal_id : Nat) : Nat :=
  internal_id * 256 + s.shard_id

/-- `Shard::CalculateShardId(uint64_t)` with `MASK = 0xFF`. -/
def CalculateShardId (id : Nat) : Nat :=
  if id < 255 then 0 else id % 256

/-- `nodes.at i` on the reads the claims exercise (all in range; the zero
entity doubles as the out-of-range default). -/
def Shard.nodeAt (s : Shard) (i : Nat) : Node := s.nodes.getD i {}

/-- `relationships.at i`. -/
def Shard.relAt (s : Shard) (i : Nat) : Relationship :=
  s.relationships.getD i {}

/-- `outgoing_relationships.at i`. -/
def Shard.outAt (s : Shard) (i : Nat) : List Group :=
  s.outgoing_relationships.getD i []

/-- `incoming_relationships.at i`. -/
def Shard.inAt (s : Shard) (i : Nat) : List Group :=
  s.incoming_relationships.getD i []

/-- `Shard::ValidNodeId`. -/
def Shard.ValidNodeId (s : Shard) (id : Nat) : Bool :=
  0 < id && externalToInternal id < s.nodes.length &&
    s.internalToExternal (externalToInternal id) = id

/-- `Shard::ValidRelationshipId`. -/
def Shard.ValidRelationshipId (s : Shard) (id : Nat) : Bool :=
  0 < id && externalToInternal id < s.relationships.length &&
    s.internalToExternal (externalToInternal id) = id

/-- Modelled from the spec: `Direction.h` is not in the source snapshot;
§6 fixes the enumeration `{IN, OUT, BOTH}`, matching every use site in
`Shard.cpp` (`direction != IN` / `direction != OUT`). -/
inductive Direction where
  | IN
  | OUT
  | BOTH
deriving Repr, DecidableEq

/-- `Shard::NodeTypeInsert`: receiver of the type-broadcast; also
prepares the per-type key index. -/
def Shard.NodeTypeInsert (s : Shard) (type : String) (type_id : Nat) :
    Shard × Bool :=
  let s1 := { s with node_keys := bagInsert s.node_keys type [] }
  let (nt, b) := s1.node_types.addTypeId type type_id
  ({ s1 with node_types := nt }, b)

/-- `Shard::RelationshipTypeInsert`: receiver of the type-broadcast. -/
def Shard.RelationshipTypeInsert (s : Shard) (type : String)
    (type_id : Nat) : Shard × Bool :=
  let (rt, b) := s.relationship_types.addTypeId type type_id
  ({ s with relationship_types := rt }, b)

/-- `Shard::NodeAddEmpty`. -/
def Shard.NodeAddEmpty (s : Shard) (type : String) (node_type : Nat)
    (key : String) : Shard × Nat :=
  let internal_id := s.nodes.length
  match bagFind s.node_keys type with
  | none => (s, 0)
  | some keymap =>
    if (bagFind keymap key).isSome then (s, 0)
    else if s.deleted_nodes.isEmpty then
      let external_id := s.internalToExternal internal_id
      let node : Node := { id := external_id, type_id := node_type, key := key }
      let s1 := { s with
        nodes := s.nodes ++ [node]
        outgoing_relationships := s.outgoing_relationships ++ [[]]
        incoming_relationships := s.incoming_relationships ++ [[]] }
      let s2 := { s1 with node_types := (s1.node_types.addId node_type external_id).1 }
      let keymap' := bagInsert keymap key external_id
      ({ s2 with node_keys := bagUpdate s2.node_keys type keymap' }, external_id)
    else
      let internal_id := rMin s.deleted_nodes
      let external_id := s.internalToExternal internal_id
      let node : Node := { id := external_id, type_id := node_type, key := key }
      let s1 := { s with
        nodes := s.nodes.set internal_id node
        deleted_nodes := rRemove s.deleted_nodes internal_id }
      let s2 := { s1 with node_types := (s1.node_types.addId node_type external_id).1 }
      let keymap' := bagInsert keymap key external_id
      ({ s2 with node_keys := bagUpdate s2.node_keys type keymap' }, external_id)

/-- `Shard::NodeAdd`: `NodeAddEmpty` plus the parsed property payload;
a parse failure returns 0 before any mutation. -/
def Shard.NodeAdd (s : Shard) (type : String) (node_type : Nat)
    (key : String) (properties : Payload) : Shard × Nat :=
  let internal_id := s.nodes.length
  match bagFind s.node_keys type with
  | none => (s, 0)
  | some keymap =>
    if (bagFind keymap key).isSome then (s, 0)
    else
      match parseInto [] properties with
      | none => (s, 0)
      | some values =>
        if s.deleted_nodes.isEmpty then
          let external_id := s.internalToExternal internal_id
          let node : Node :=
            { id := external_id, type_id := node_type, key := key
              properties := setPropertiesVec values }
          let s1 := { s with
            nodes := s.nodes ++ [node]
            outgoing_relationships := s.outgoing_relationships ++ [[]]
            incoming_relationships := s.incoming_relationships ++ [[]] }
          let s2 := { s1 with node_types := (s1.node_types.addId node_type external_id).1 }
          let keymap' := bagInsert keymap key external_id
          ({ s2 with node_keys := bagUpdate s2.node_keys type keymap' }, external_id)
        else
          let internal_id := rMin s.deleted_nodes
          let external_id := s.internalToExternal internal_id
          let node : Node :=
            { id := external_id, type_id := node_type, key := key
              properties := setPropertiesVec values }
          let s1 := { s with
            nodes := s.nodes.set internal_id node
            deleted_nodes := rRemove s.deleted_nodes internal_id }
          let s2 := { s1 with node_types := (s1.node_types.addId node_type external_id).1 }
          let keymap' := bagInsert keymap key external_id
          ({ s2 with node_keys := bagUpdate s2.node_keys type keymap' }, external_id)

/-- `Shard::NodeGetID`. -/
def Shard.NodeGetID (s : Shard) (type key : String) : Nat :=
  match bagFind s.node_keys type with
  | none => 0
  | some keymap => (bagFind keymap key).getD 0

/-- `Shard::NodeGet(uint64_t)` (`NodeGetById` on the scripting
surface). -/
def Shard.NodeGetById (s : Shard) (id : Nat) : Node :=
  if s.ValidNodeId id then s.nodeAt (externalToInternal id)
  else s.nodeAt 0

/-- One step of the outgoing-relationships sweep of
`Shard::NodeRemove(type, key)` (lines 500–525): recycle the slot,
decrement the type count, clear the record, and when this shard owns the
peer delete the mirror incoming entry. -/
def removeOutgoingEdge (acc : Shard) (relType : Nat) (entry : Ids) : Shard :=
  let internal_rel_id := externalToInternal entry.rel_id
  let acc := { acc with
    deleted_relationships := rAdd acc.deleted_relationships internal_rel_id }
  let acc := { acc with
    relationship_types := (acc.relationship_types.removeId relType entry.rel_id).1 }
  let acc := { acc with relationships := acc.relationships.set internal_rel_id {} }
  if CalculateShardId entry.node_id = acc.shard_id then
    let other_internal_id := externalToInternal entry.node_id
    let groups := updateFirstGroup (acc.inAt other_internal_id) relType
      (fun l => l.filter (fun e => e.rel_id ≠ entry.rel_id))
    { acc with incoming_relationships :=
        acc.incoming_relationships.set other_internal_id groups }
  else acc

/-- One step of the incoming-relationships sweep of
`Shard::NodeRemove(type, key)` (lines 537–563).  Note the recycled index:
the source inserts `ids.rel_id` — the external id — into
`deleted_relationships` here, where the outgoing sweep inserts
`externalToInternal(ids.rel_id)`. -/
def removeIncomingEdge (external_id : Nat) (acc : Shard) (relType : Nat)
    (entry : Ids) : Shard :=
  if entry.node_id ≠ external_id then
    let acc := { acc with
      deleted_relationships := rAdd acc.deleted_relationships entry.rel_id }
    let acc := { acc with
      relationship_types := (acc.relationship_types.removeId relType entry.rel_id).1 }
    let internal_rel_id := externalToInternal entry.rel_id
    let acc := { acc with relationships := acc.relationships.set internal_rel_id {} }
    if CalculateShardId entry.node_id = acc.shard_id then
      let other_internal_id := externalToInternal entry.node_id
      let groups := updateFirstGroup (acc.outAt other_internal_id) relType
        (fun l => l.filter (fun e => e.rel_id ≠ entry.rel_id))
      { acc with outgoing_relationships :=
          acc.outgoing_relationships.set other_internal_id groups }
    else acc
  else acc

/-- `Shard::NodeRemove(type, key)`.  The source looks the key up in the
per-type index and dereferences the result without a presence check
(`key_search->second` at line 482); `none` marks the reached end-iterator
dereference for an absent key. -/
def Shard.NodeRemoveByKey (s : Shard) (type key : String) :
    Option (Shard × Bool) :=
  match bagFind s.node_keys type with
  | none => some (s, false)
  | some keymap =>
    let node_type := s.node_types.getTypeId type
    match bagFind keymap key with
    | none => none
    | some external_id =>
      let internal_id := externalToInternal external_id
      if 0 < internal_id then
        let s1 := { s with node_keys := bagUpdate s.node_keys type (bagErase keymap key) }
        let s2 := { s1 with nodes := s1.nodes.set internal_id {} }
        let s3 := { s2 with deleted_nodes := rAdd s2.deleted_nodes internal_id }
        let s4 := { s3 with node_types := (s3.node_types.removeId node_type external_id).1 }
        let s5 := (s4.outAt internal_id).foldl
          (fun acc g => g.ids.foldl (fun a e => removeOutgoingEdge a g.rel_type_id e) acc) s4
        let s6 := { s5 with
          outgoing_relationships := s5.outgoing_relationships.set internal_id [] }
        let s7 := (s6.inAt internal_id).foldl
          (fun acc g => g.ids.foldl
            (fun a e => removeIncomingEdge external_id a g.rel_type_id e) acc) s6
        let s8 := { s7 with
          incoming_relationships := s7.incoming_relationships.set internal_id [] }
        some (s8, true)
      else some (s, false)

/-- `Shard::NodeRemove(uint64_t)` (`NodeRemoveById` on the scripting
surface). -/
def Shard.NodeRemoveById (s : Shard) (id : Nat) : Option (Shard × Bool) :=
  if s.ValidNodeId id then
    let node := s.nodeAt (externalToInternal id)
    s.NodeRemoveByKey (s.node_types.getType node.type_id) node.key
  else some (s, false)

/-- `value.merge(values)` on `std::map`: splice into `value` every
element of `values` whose key `value` does not already hold. -/
def stdMerge (value values : List (String × PVal)) : List (String × PVal) :=
  values.foldl (fun acc kv => bagInsert acc kv.1 kv.2) value

/-- `Shard::NodePropertyDelete(uint64_t, property)`. -/
def Shard.NodePropertyDelete (s : Shard) (id : Nat) (property : String) :
    Shard × Bool :=
  if s.ValidNodeId id then
    let internal_id := externalToInternal id
    let node := s.nodeAt internal_id
    let (props, res) := deletePropertyVec node.properties property
    let node' := { node with properties := props }
    ({ s with nodes := s.nodes.set internal_id node' }, res)
  else (s, false)

/-- `Shard::RelationshipPropertyDelete(uint64_t, property)`. -/
def Shard.RelationshipPropertyDelete (s : Shard) (id : Nat)
    (property : String) : Shard × Bool :=
  if s.ValidRelationshipId id then
    let internal_id := externalToInternal id
    let rel := s.relAt internal_id
    let (props, res) := deletePropertyVec rel.properties property
    let rel' := { rel with properties := props }
    ({ s with relationships := s.relationships.set internal_id rel' }, res)
  else (s, false)

/-- `Shard::NodePropertiesSet(uint64_t, map)`: pull the current map,
`value.merge` it, write the result back. -/
def Shard.NodePropertiesSet (s : Shard) (id : Nat)
    (value : List (String × PVal)) : Shard × Bool :=
  if s.ValidNodeId id then
    let internal_id := externalToInternal id
    let node := s.nodeAt internal_id
    let values := getPropertyMap node.properties
    let merged := stdMerge value values
    let node' := { node with properties := setPropertiesVec merged }
    ({ s with nodes := s.nodes.set internal_id node' }, true)
  else (s, false)

/-- `Shard::NodePropertiesSetFromJson(uint64_t, value)`: seed the
conversion with the node's current map, so the parse inserts only unseen
keys. -/
def Shard.NodePropertiesSetFromJson (s : Shard) (id : Nat)
    (value : Payload) : Shard × Bool :=
  if s.ValidNodeId id then
    let internal_id := externalToInternal id
    let node := s.nodeAt internal_id
    let values := getPropertyMap node.properties
    match parseInto values value with
    | none => (s, false)
    | some values' =>
      let node' := { node with properties := setPropertiesVec values' }
      ({ s with nodes := s.nodes.set internal_id node' }, true)
  else (s, false)

/-- `Shard::NodePropertiesReset(uint64_t, map)`. -/
def Shard.NodePropertiesReset (s : Shard) (id : Nat)
    (value : List (String × PVal)) : Shard × Bool :=
  if s.ValidNodeId id then
    let internal_id := externalToInternal id
    let node := s.nodeAt internal_id
    let node' := { node with properties := setPropertiesVec value }
    ({ s with nodes := s.nodes.set internal_id node' }, true)
  else (s, false)

/-- `Shard::NodePropertiesResetFromJson(uint64_t, value)`. -/
def Shard.NodePropertiesResetFromJson (s : Shard) (id : Nat)
    (value : Payload) : Shard × Bool :=
  if s.ValidNodeId id then
    match parseInto [] value with
    | none => (s, false)
    | some values =>
      let internal_id := externalToInternal id
      let node := s.nodeAt internal_id
      let node' := { node with properties := setPropertiesVec values }
      ({ s with nodes := s.nodes.set internal_id node' }, true)
  else (s, false)

/-- `Shard::RelationshipPropertiesSet(uint64_t, map)`. -/
def Shard.RelationshipPropertiesSet (s : Shard) (id : Nat)
    (value : List (String × PVal)) : Shard × Bool :=
  if s.ValidRelationshipId id then
    let internal_id := externalToInternal id
    let rel := s.relAt internal_id
    let values := getPropertyMap rel.properties
    let merged := stdMerge value values
    let rel' := { rel with properties := setPropertiesVec merged }
    ({ s with relationships := s.relationships.set internal_id rel' }, true)
  else (s, false)

/-- `Shard::RelationshipPropertiesSetFromJson(uint64_t, value)`.
Translated exactly: the final write is
`nodes.at(internal_id).setProperties(values)` (line 1567) — it stores the
merged map into the NODE record at the relationship's internal index and
leaves the relationship record untouched. -/
def Shard.RelationshipPropertiesSetFromJson (s : Shard) (id : Nat)
    (value : Payload) : Shard × Bool :=
  if s.ValidRelationshipId id then
    let internal_id := externalToInternal id
    let rel := s.relAt internal_id
    let values := getPropertyMap rel.properties
    match parseInto values value with
    | none => (s, false)
    | some values' =>
      let node := s.nodeAt internal_id
      let node' := { node with properties := setPropertiesVec values' }
      ({ s with nodes := s.nodes.set internal_id node' }, true)
  else (s, false)

/-- `Shard::RelationshipPropertiesReset(uint64_t, map)`. -/
def Shard.RelationshipPropertiesReset (s : Shard) (id : Nat)
    (value : List (String × PVal)) : Shard × Bool :=
  if s.ValidRelationshipId id then
    let internal_id := externalToInternal id
    let rel := s.relAt internal_id
    let rel' := { rel with properties := setPropertiesVec value }
    ({ s with relationships := s.relationships.set internal_id rel' }, true)
  else (s, false)

/-- `Shard::RelationshipPropertiesResetFromJson(uint64_t, value)`.
Translated exactly: the write (line 1604) again targets
`nodes.at(internal_id)`, not the relationship record. -/
def Shard.RelationshipPropertiesResetFromJson (s : Shard) (id : Nat)
    (value : Payload) : Shard × Bool :=
  if s.ValidRelationshipId id then
    let internal_id := externalToInternal id
    match parseInto [] value with
    | none => (s, false)
    | some values =>
      let node := s.nodeAt internal_id
      let node' := { node with properties := setPropertiesVec values }
      ({ s with nodes := s.nodes.set internal_id node' }, true)
  else (s, false)

/-- The slot allocation shared by the relationship adds: reuse the
minimum deleted index, else append. -/
def allocRelationship (s : Shard) (rel_type id1 id2 : Nat) : Shard × Nat :=
  if !s.deleted_relationships.isEmpty then
    let internal_id := rMin s.deleted_relationships
    let external_id := s.internalToExternal internal_id
    let rel : Relationship :=
      { id := external_id, starting_node_id := id1, ending_node_id := id2
        type := rel_type }
    ({ s with relationships := s.relationships.set internal_id rel
              deleted_relationships := rRemove s.deleted_relationships internal_id },
     external_id)
  else
    let internal_id := s.relationships.length
    let external_id := s.internalToExternal internal_id
    let rel : Relationship :=
      { id := external_id, starting_node_id := id1, ending_node_id := id2
        type := rel_type }
    ({ s with relationships := s.relationships ++ [rel] }, external_id)

/-- `Shard::RelationshipAddEmptySameShard(uint16_t, uint64_t, uint64_t)`. -/
def Shard.RelationshipAddEmptySameShard (s : Shard) (rel_type id1 id2 : Nat) :
    Shard × Nat :=
  let internal_id1 := externalToInternal id1
  let internal_id2 := externalToInternal id2
  if s.ValidNodeId id1 && s.ValidNodeId id2 then
    let (s1, external_id) := allocRelationship s rel_type id1 id2
    let outg := addToGroups (s1.outAt internal_id1) rel_type ⟨id2, external_id⟩
    let s2 := { s1 with outgoing_relationships := s1.outgoing_relationships.set internal_id1 outg }
    let inc := addToGroups (s2.inAt internal_id2) rel_type ⟨id1, external_id⟩
    let s3 := { s2 with incoming_relationships := s2.incoming_relationships.set internal_id2 inc }
    let rt := (s3.relationship_types.addId rel_type external_id).1
    ({ s3 with relationship_types := rt }, external_id)
  else (s, 0)

/-- `Shard::RelationshipAddEmptyToOutgoing`: the outgoing half of the
cross-shard insert — record allocation plus the starting node's
adjacency, no validity check, no incoming write. -/
def Shard.RelationshipAddEmptyToOutgoing (s : Shard) (rel_type id1 id2 : Nat) :
    Shard × Nat :=
  let (s1, external_id) := allocRelationship s rel_type id1 id2
  let internal_id1 := externalToInternal id1
  let outg := addToGroups (s1.outAt internal_id1) rel_type ⟨id2, external_id⟩
  let s2 := { s1 with outgoing_relationships := s1.outgoing_relationships.set internal_id1 outg }
  let rt := (s2.relationship_types.addId rel_type external_id).1
  ({ s2 with relationship_types := rt }, external_id)

/-- `Shard::RelationshipAddToIncoming`: the incoming half of the
cross-shard insert, keyed by the already-allocated `rel_id`, which it
also returns. -/
def Shard.RelationshipAddToIncoming (s : Shard) (rel_type rel_id id1 id2 : Nat) :
    Shard × Nat :=
  let internal_id2 := externalToInternal id2
  let inc := addToGroups (s.inAt internal_id2) rel_type ⟨id1, rel_id⟩
  ({ s with incoming_relationships := s.incoming_relationships.set internal_id2 inc }, rel_id)

/-- `Shard::NodeGetDegree(uint64_t)`: the unfiltered by-id overload sums
the LENGTHS OF THE GROUP VECTORS — the number of distinct relationship
types per direction — exactly as line 1646 does. -/
def Shard.NodeGetDegreeById (s : Shard) (id : Nat) : Nat :=
  if s.ValidNodeId id then
    let internal_id := externalToInternal id
    (s.outAt internal_id).length + (s.inAt internal_id).length
  else 0

/-- The group of the given type, if present (`find_if` over the group
vector). -/
def findGroup (gs : List Group) (type_id : Nat) : Option Group :=
  gs.find? (fun g => g.rel_type_id = type_id)

/-- `Shard::NodeGetDegree(uint64_t, Direction, vector<string>)`. -/
def Shard.NodeGetDegreeByIdForDirectionForTypes (s : Shard) (id : Nat)
    (direction : Direction) (rel_types : List String) : Nat :=
  if s.ValidNodeId id then
    let internal_id := externalToInternal id
    let count := 0
    let count :=
      if direction ≠ .IN then
        rel_types.foldl (fun c rel_type =>
          let type_id := s.relationship_types.getTypeId rel_type
          if 0 < type_id then
            match findGroup (s.outAt internal_id) type_id with
            | some g => c + g.ids.length
            | none => c
          else c) count
      else count
    let count :=
      if direction ≠ .OUT then
        rel_types.foldl (fun c rel_type =>
          let type_id := s.relationship_types.getTypeId rel_type
          if 0 < type_id then
            match findGroup (s.inAt internal_id) type_id with
            | some g => c + g.ids.length
            | none => c
          else c) count
      else count
    count
  else 0

/-- `Shard::NodeGetRelationshipsIDs(uint64_t)`: every outgoing entry, in
group order, then every incoming entry. -/
def Shard.NodeGetRelationshipsIdsById (s : Shard) (id : Nat) : List Ids :=
  if s.ValidNodeId id then
    let internal_id := externalToInternal id
    let ids := (s.outAt internal_id).foldl (fun acc g => acc ++ g.ids) []
    (s.inAt internal_id).foldl (fun acc g => acc ++ g.ids) ids
  else []

/-- `Shard::NodeGetRelationshipsIDs(uint64_t, Direction, vector<string>)`. -/
def Shard.NodeGetRelationshipsIdsByIdForDirectionForTypes (s : Shard)
    (id : Nat) (direction : Direction) (rel_types : List String) :
    List Ids :=
  if s.ValidNodeId id then
    let internal_id := externalToInternal id
    let ids : List Ids := []
    let ids :=
      if direction ≠ .IN then
        rel_types.foldl (fun acc rel_type =>
          let type_id := s.relationship_types.getTypeId rel_type
          if 0 < type_id then
            match findGroup (s.outAt internal_id) type_id with
            | some g => acc ++ g.ids
            | none => acc
          else acc) ids
      else ids
    let ids :=
      if direction ≠ .OUT then
        rel_types.foldl (fun acc rel_type =>
          let type_id := s.relationship_types.getTypeId rel_type
          if 0 < type_id then
            match findGroup (s.inAt internal_id) type_id with
            | some g => acc ++ g.ids
            | none => acc
          else acc) ids
      else ids
    ids
  else []

/-- Sorted insert-without-overwrite: `std::map<uint16_t, …>::insert`,
keeping the key order the C++ map iterates in. -/
def smInsert {α : Type} : List (Nat × α) → Nat → α → List (Nat × α)
  | [], k, v => [(k, v)]
  | (k0, v0) :: rest, k, v =>
    if k < k0 then (k, v) :: (k0, v0) :: rest
    else if k = k0 then (k0, v0) :: rest
    else (k0, v0) :: smInsert rest k v

/-- The per-edge shard map built inside `NodeRemoveGetIncoming` /
`NodeRemoveGetOutgoing`: one slot per cpu, the remote peer pushed into
its owning shard's slot, empty slots pruned. -/
def perEdgeShardMap (s : Shard) (node_id : Nat) : List (Nat × List Nat) :=
  let node_ids := (List.range s.cpus).map (fun i => (i, ([] : List Nat)))
  let node_shard_id := CalculateShardId node_id
  let node_ids :=
    if node_shard_id ≠ s.shard_id then natUpdate node_ids node_shard_id [node_id]
    else node_ids
  node_ids.filter (fun kv => !kv.2.isEmpty)

/-- `Shard::NodeRemoveGetIncoming`: walk the outgoing groups and collect,
per relationship type (first edge of each type wins — `map::insert` does
not overwrite), the remote counterpart nodes grouped by shard. -/
def Shard.NodeRemoveGetIncoming (s : Shard) (internal_id : Nat) :
    List (Nat × List (Nat × List Nat)) :=
  (s.outAt internal_id).foldl (fun acc g =>
    g.ids.foldl (fun acc entry =>
      smInsert acc g.rel_type_id (perEdgeShardMap s entry.node_id)) acc) []

/-- `Shard::NodeRemoveGetOutgoing`: the symmetric walk over the incoming
groups. -/
def Shard.NodeRemoveGetOutgoing (s : Shard) (internal_id : Nat) :
    List (Nat × List (Nat × List Nat)) :=
  (s.inAt internal_id).foldl (fun acc g =>
    g.ids.foldl (fun acc entry =>
      smInsert acc g.rel_type_id (perEdgeShardMap s entry.node_id)) acc) []

/-- `Shard::NodeRemoveDeleteIncoming`: on a peer shard, strip every
incoming entry pointing back at the removed node `id`. -/
def Shard.NodeRemoveDeleteIncoming (s : Shard) (id : Nat)
    (grouped_relationships : List (Nat × List Nat)) : Shard × Bool :=
  (grouped_relationships.foldl (fun acc kv =>
    let rel_type_id := kv.1
    kv.2.foldl (fun acc node_id =>
      let internal_id := externalToInternal node_id
      let groups := updateFirstGroup (acc.inAt internal_id) rel_type_id
        (fun l => l.filter (fun e => e.node_id ≠ id))
      { acc with incoming_relationships :=
          acc.incoming_relationships.set internal_id groups }) acc) s, true)

/-- `Shard::NodeRemoveDeleteOutgoing`: on a peer shard, strip every
outgoing entry pointing at the removed node `id`, recycling each matching
relationship record on the way (the `remove_if` body's side effects). -/
def Shard.NodeRemoveDeleteOutgoing (s : Shard) (id : Nat)
    (grouped_relationships : List (Nat × List Nat)) : Shard × Bool :=
  (grouped_relationships.foldl (fun acc kv =>
    let rel_type_id := kv.1
    kv.2.foldl (fun acc node_id =>
      let internal_id := externalToInternal node_id
      match findGroup (acc.outAt internal_id) rel_type_id with
      | none => acc
      | some g =>
        let acc2 := g.ids.foldl (fun a e =>
          if e.node_id = id then
            let internal_rel := externalToInternal e.rel_id
            let a := { a with
              deleted_relationships := rAdd a.deleted_relationships internal_rel }
            let a := { a with
              relationship_types := (a.relationship_types.removeId rel_type_id e.rel_id).1 }
            { a with relationships := a.relationships.set internal_rel {} }
          else a) acc
        let groups := updateFirstGroup (acc2.outAt internal_id) rel_type_id
          (fun l => l.filter (fun e => e.node_id ≠ id))
        { acc2 with outgoing_relationships :=
            acc2.outgoing_relationships.set internal_id groups }) acc) s, true)

/-- The N shards of the engine (`seastar::sharded<Shard>`); `invoke_on i`
reads and writes slot `i`. -/
structure Graph where
  shards : List Shard

/-- The shard a message is routed to. -/
def Graph.at (g : Graph) (i : Nat) : Shard := g.shards.getD i default

/-- Writing a shard's state back after an `invoke_on`. -/
def Graph.setAt (g : Graph) (i : Nat) (s : Shard) : Graph :=
  ⟨g.shards.set i s⟩

/-- `Shard::RelationshipAddEmptyPeered(uint16_t, uint64_t, uint64_t)`,
with the seastar continuations serialized in program order: check the
type id on the calling shard, validate each endpoint on its owning shard,
then outgoing half on `shard_id1`, then incoming half on `shard_id2`
keyed by the allocated id, which is the value returned. -/
def Graph.RelationshipAddEmptyPeered (g : Graph)
    (caller rel_type_id id1 id2 : Nat) : Graph × Nat :=
  let shard_id1 := CalculateShardId id1
  let shard_id2 := CalculateShardId id2
  if (g.at caller).relationship_types.ValidTypeId rel_type_id then
    let valid1 := (g.at shard_id1).ValidNodeId id1
    let valid2 := (g.at shard_id2).ValidNodeId id2
    if valid1 && valid2 then
      let (sh1, rel_id) :=
        (g.at shard_id1).RelationshipAddEmptyToOutgoing rel_type_id id1 id2
      let g1 := g.setAt shard_id1 sh1
      let (sh2, ret) :=
        (g1.at shard_id2).RelationshipAddToIncoming rel_type_id rel_id id1 id2
      (g1.setAt shard_id2 sh2, ret)
    else (g, 0)
  else (g, 0)

/-- `Shard::NodeRemovePeered(uint64_t)`, with the fan-out joins
serialized in program order and each leg's outcome supplied by a failure
oracle (a failing leg is a task whose future resolves exceptionally; it
leaves its shard untouched here, while `when_all_succeed` still awaits
the sibling legs, whose effects stand).  Mirrored from the source: the
incoming work list is computed on the node's shard, the outgoing work
list on the CALLING shard (line 3341), legs are dispatched per key of
those maps, and the local remove on the node's shard runs only in the
all-success continuation.  `none` propagates the unchecked key
dereference of the local `NodeRemove`.  One incoming fan-out leg first: -/
def incomingLegStep (external_id : Nat) (incFail : Nat → Bool)
    (p : Graph × Bool) (kv : Nat × List (Nat × List Nat)) : Graph × Bool :=
  if incFail kv.1 then (p.1, true)
  else
    (p.1.setAt kv.1 ((p.1.at kv.1).NodeRemoveDeleteIncoming external_id kv.2).1, p.2)

/-- One outgoing fan-out leg. -/
def outgoingLegStep (external_id : Nat) (outFail : Nat → Bool)
    (p : Graph × Bool) (kv : Nat × List (Nat × List Nat)) : Graph × Bool :=
  if outFail kv.1 then (p.1, true)
  else
    (p.1.setAt kv.1 ((p.1.at kv.1).NodeRemoveDeleteOutgoing external_id kv.2).1, p.2)

/-- `Shard::NodeRemovePeered(uint64_t)` proper. -/
def Graph.NodeRemovePeered (g : Graph) (caller external_id : Nat)
    (incFail outFail : Nat → Bool) : Option (Graph × Bool) :=
  let node_shard_id := CalculateShardId external_id
  if (g.at node_shard_id).ValidNodeId external_id then
    let internal_id := externalToInternal external_id
    let inc_map := (g.at node_shard_id).NodeRemoveGetIncoming internal_id
    let r1 := inc_map.foldl (incomingLegStep external_id incFail) (g, false)
    let out_map := (r1.1.at caller).NodeRemoveGetOutgoing internal_id
    let r2 := out_map.foldl (outgoingLegStep external_id outFail) (r1.1, false)
    if r1.2 || r2.2 then some (r2.1, false)
    else
      match (r2.1.at node_shard_id).NodeRemoveById external_id with
      | none => none
      | some pr => some (r2.1.setAt node_shard_id pr.1, pr.2)
  else some (g, false)

/-- The incoming work list `NodeRemovePeered` computes on the node's
shard. -/
def nodeRemoveIncMap (g : Graph) (external_id : Nat) :
    List (Nat × List (Nat × List Nat)) :=
  (g.at (CalculateShardId external_id)).NodeRemoveGetIncoming
    (externalToInternal external_id)

/-- The graph after the incoming fan-out legs have run. -/
def nodeRemoveAfterIncLegs (g : Graph) (external_id : Nat)
    (incFail : Nat → Bool) : Graph :=
  ((nodeRemoveIncMap g external_id).foldl
    (incomingLegStep external_id incFail) (g, false)).1

/-- The outgoing work list, computed on the CALLING shard as the source
does. -/
def nodeRemoveOutMap (g : Graph) (caller external_id : Nat)
    (incFail : Nat → Bool) : List (Nat × List (Nat × List Nat)) :=
  ((nodeRemoveAfterIncLegs g external_id incFail).at caller).NodeRemoveGetOutgoing
    (externalToInternal external_id)

/-- The graph after both fan-out joins have resolved. -/
def nodeRemoveAfterLegs (g : Graph) (caller external_id : Nat)
    (incFail outFail : Nat → Bool) : Graph :=
  ((nodeRemoveOutMap g caller external_id incFail).foldl
    (outgoingLegStep external_id outFail)
    (nodeRemoveAfterIncLegs g external_id incFail, false)).1

/-- Whether some leg of either fan-out failed. -/
def nodeRemoveAnyLegFailed (g : Graph) (caller external_id : Nat)
    (incFail outFail : Nat → Bool) : Bool :=
  (nodeRemoveIncMap g external_id).any (fun kv => incFail kv.1) ||
  (nodeRemoveOutMap g caller external_id incFail).any (fun kv => outFail kv.1)

/-- First-wins choice on optional lookups, used to state merge
semantics. -/
def oElse {α : Type} : Option α → Option α → Option α
  | some a, _ => some a
  | none, b => b

/-!  Concrete states for the counterexamples and witnesses.  The
single-shard scenario mirrors the repository's own test setup
(`src/test/shard`): one shard, node type `Node` = 1, relationship type
`FRIENDS` = 1, nodes `a` (id 256) and `b` (id 512), and one `FRIENDS`
relationship 256 → 512 (id 256). -/

def demoShard0 : Shard := ((Shard.init 1 0).NodeTypeInsert "Node" 1).1

def demoShard1 : Shard := (demoShard0.RelationshipTypeInsert "FRIENDS" 1).1

def demoShard2 : Shard := (demoShard1.NodeAddEmpty "Node" 1 "a").1

def demoShard3 : Shard := (demoShard2.NodeAddEmpty "Node" 1 "b").1

def demoShard : Shard := (demoShard3.RelationshipAddEmptySameShard 1 256 512).1

/-- `demoShard` with the relationship 256 carrying one property. -/
def demoShardRelProps : Shard :=
  (demoShard.RelationshipPropertiesReset 256 [("since", .pint 2020)]).1

/-- `RelationshipPropertiesSetFromJson` applied to relationship 256. -/
def demoRelSetFromJson : Shard × Bool :=
  demoShardRelProps.RelationshipPropertiesSetFromJson 256
    (.obj (.cons "weight" (.jint 1) .nil))

/-- `RelationshipPropertiesResetFromJson` applied to relationship 256. -/
def demoRelResetFromJson : Shard × Bool :=
  demoShardRelProps.RelationshipPropertiesResetFromJson 256
    (.obj (.cons "weight" (.jint 1) .nil))

/-- `demoShard` with node 256 carrying one property. -/
def demoShardNodeProps : Shard :=
  (demoShard.NodePropertiesReset 256 [("age", .pint 1)]).1

/-- A shard of an N-cpu cluster holding one `Node` node, with
relationship types `KNOWS` = 1 and `LIKES` = 2 broadcast. -/
def demoClusterShard (cpus shard_id : Nat) (key : String) : Shard :=
  let s := ((Shard.init cpus shard_id).NodeTypeInsert "Node" 1).1
  let s := (s.RelationshipTypeInsert "KNOWS" 1).1
  let s := (s.RelationshipTypeInsert "LIKES" 2).1
  (s.NodeAddEmpty "Node" 1 key).1

/-- Two shards: node `u` = 256 on shard 0, node `v` = 257 on shard 1. -/
def demoGraph2 : Graph := ⟨[demoClusterShard 2 0 "u", demoClusterShard 2 1 "v"]⟩

/-- Three shards: `u` = 256 on shard 0, `v` = 257 on shard 1,
`w` = 258 on shard 2. -/
def demoGraph3 : Graph :=
  ⟨[demoClusterShard 3 0 "u", demoClusterShard 3 1 "v", demoClusterShard 3 2 "w"]⟩

/-- `demoGraph3` after cross-shard inserts `KNOWS` 256 → 257 and
`LIKES` 256 → 258. -/
def demoGraph3Edges : Graph :=
  ((demoGraph3.RelationshipAddEmptyPeered 0 1 256 257).1.RelationshipAddEmptyPeered
    0 2 256 258).1

/-!  Helper lemmas about the container embeddings. -/

theorem oElse_none_right {α : Type} (x : Option α) : oElse x none = x := by
  cases x <;> rfl

theorem oElse_assoc {α : Type} (a b c : Option α) :
    oElse (oElse a b) c = oElse a (oElse b c) := by
  cases a <;> rfl

theorem bagFind_append {α : Type} (a b : List (String × α)) (k : String) :
    bagFind (a ++ b) k = oElse (bagFind a k) (bagFind b k) := by
  induction a with
  | nil => rfl
  | cons hd tl ih =>
    obtain ⟨k0, v0⟩ := hd
    by_cases h : k0 = k <;> simp [bagFind, h, ih, oElse]

theorem bagFind_bagInsert {α : Type} (m : List (String × α)) (k' : String)
    (v : α) (k : String) :
    bagFind (bagInsert m k' v) k =
      oElse (bagFind m k) (if k' = k then some v else none) := by
  unfold bagInsert
  by_cases hp : (bagFind m k').isSome
  · simp only [hp, if_true]
    by_cases hk : k' = k
    · subst hk
      obtain ⟨w, hw⟩ := Option.isSome_iff_exists.mp hp
      simp [hw, oElse]
    · simp [hk, oElse_none_right]
  · rw [if_neg hp, bagFind_append]
    simp [bagFind]

theorem bagFind_foldlInsert {α : Type} (l : List (String × α))
    (acc : List (String × α)) (k : String) :
    bagFind (l.foldl (fun a kv => bagInsert a kv.1 kv.2) acc) k =
      oElse (bagFind acc k) (bagFind l k) := by
  induction l generalizing acc with
  | nil => simp [bagFind, oElse_none_right]
  | cons hd tl ih =>
    obtain ⟨k0, v0⟩ := hd
    rw [List.foldl_cons, ih, bagFind_bagInsert, oElse_assoc]
    by_cases h : k0 = k <;> simp [bagFind, h, oElse]

theorem bagFind_stdMerge (value values : List (String × PVal)) (k : String) :
    bagFind (stdMerge value values) k =
      oElse (bagFind value k) (bagFind values k) :=
  bagFind_foldlInsert values value k

theorem bagFind_getPropertyMap (l : List (String × PVal)) (k : String) :
    bagFind (getPropertyMap l) k = bagFind l k := by
  unfold getPropertyMap
  rw [bagFind_foldlInsert]
  rfl

theorem bagFind_convertEntry (values : List (String × PVal)) (p : String)
    (v : JVal) (k : String) :
    bagFind (convertEntry values p v) k =
      oElse (bagFind values k) (bagFind (convertEntry [] p v) k) := by
  cases v <;>
    simp only [convertEntry, bagFind_bagInsert, bagFind, oElse_none_right]

theorem bagFind_convertProperties :
    ∀ (o : JObj) (values : List (String × PVal)) (k : String),
    bagFind (convertProperties values o) k =
      oElse (bagFind values k) (bagFind (convertProperties [] o) k)
  | .nil, values, k => by simp [convertProperties, bagFind, oElse_none_right]
  | .cons p v rest, values, k => by
    simp only [convertProperties]
    rw [bagFind_convertProperties rest, bagFind_convertProperties rest (convertEntry [] p v),
      bagFind_convertEntry, oElse_assoc]

theorem getD_set_self {α : Type} (l : List α) (i : Nat) (a d : α)
    (h : i < l.length) : (l.set i a).getD i d = a := by
  induction l generalizing i with
  | nil => simp at h
  | cons hd tl ih =>
    cases i with
    | zero => rfl
    | succ n => exact ih n (Nat.lt_of_succ_lt_succ h)

theorem getD_set_ne {α : Type} (l : List α) (i j : Nat) (a d : α)
    (h : i ≠ j) : (l.set i a).getD j d = l.getD j d := by
  induction l generalizing i j with
  | nil => simp
  | cons hd tl ih =>
    cases i with
    | zero =>
      cases j with
      | zero => exact absurd rfl h
      | succ m => rfl
    | succ n =>
      cases j with
      | zero => rfl
      | succ m => exact ih n m (fun hnm => h (by rw [hnm]))

theorem foldl_min_ge_one (xs : List Nat) :
    ∀ x, 1 ≤ x → (∀ y ∈ xs, 1 ≤ y) → 1 ≤ xs.foldl Nat.min x := by
  induction xs with
  | nil => intro x h1 _; exact h1
  | cons hd tl ih =>
    intro x h1 h2
    exact ih (Nat.min x hd)
      (Nat.le_min.mpr ⟨h1, h2 hd (List.mem_cons_self hd tl)⟩)
      (fun y hy => h2 y (List.mem_cons_of_mem hd hy))

theorem rMin_ge_one (s : List Nat) (hne : s ≠ [])
    (h : ∀ x ∈ s, 1 ≤ x) : 1 ≤ rMin s := by
  match s, hne with
  | x :: xs, _ =>
    exact foldl_min_ge_one xs x (h x (List.mem_cons_self x xs))
      (fun y hy => h y (List.mem_cons_of_mem x hy))

theorem addTypeId_snd_false (t : Types) (token : String) (token_id : Nat) :
    (t.addTypeId token token_id).2 = false := by
  unfold Types.addTypeId
  split
  · rfl
  · split <;> rfl

/-- C10: `Types::addTypeId` returns `false` on every path — name already
bound, id already bound, and successful insert of a new `(name, id)`
binding alike — so its result never indicates success, and the per-shard
broadcast receivers `NodeTypeInsert` and `RelationshipTypeInsert`, which
return it directly, always report `false`. -/
theorem add_type_id_always_false (t : Types) (token : String)
    (token_id : Nat) (s : Shard) (type : String) (type_id : Nat) :
    (t.addTypeId token token_id).2 = false ∧
    (s.NodeTypeInsert type type_id).2 = false ∧
    (s.RelationshipTypeInsert type type_id).2 = false := by
  refine ⟨addTypeId_snd_false t token token_id, ?_, ?_⟩
  · simp only [Shard.NodeTypeInsert, addTypeId_snd_false]
  · simp only [Shard.RelationshipTypeInsert, addTypeId_snd_false]

theorem deletePropertyVec_snd_false (props : List (String × PVal))
    (property : String) : (deletePropertyVec props property).2 = false := by
  simp [deletePropertyVec]

/-- C9: the erase–remove idiom in `Node::deleteProperty` /
`Relationship::deleteProperty` compares the result of `erase` — the
post-erase `end()` — against `end()`, so the function returns `false`
for every entity and key, present keys whose entries were removed
included; `NodePropertyDelete` / `RelationshipPropertyDelete` forward
that `false` on valid ids and return `false` themselves on invalid ones.
The middle conjunct shows a present key really is erased while `false`
is reported. -/
theorem delete_property_always_false (s : Shard) (id : Nat)
    (property : String) (props : List (String × PVal)) :
    (deletePropertyVec props property).2 = false ∧
    (deletePropertyVec [(property, PVal.pint 7)] property
      = ([], false)) ∧
    (s.NodePropertyDelete id property).2 = false ∧
    (s.RelationshipPropertyDelete id property).2 = false := by
  refine ⟨deletePropertyVec_snd_false props property, ?_, ?_, ?_⟩
  · simp [deletePropertyVec]
  · unfold Shard.NodePropertyDelete
    split
    · simp [deletePropertyVec_snd_false]
    · rfl
  · unfold Shard.RelationshipPropertyDelete
    split
    · simp [deletePropertyVec_snd_false]
    · rfl

/-- C4 (amended): with direction `BOTH` and an empty relationship-type
list, the filtered degree overload returns 0 and the filtered
relationship-id traversal returns the empty vector, for every shard and
id — their loops range over the requested types, of which there are
none.  They therefore agree with the unfiltered by-id overloads only
when those also return 0 / empty (invalid ids, or nodes with no
adjacency groups). -/
theorem both_empty_filter_returns_zero_and_nil (s : Shard) (id : Nat) :
    s.NodeGetDegreeByIdForDirectionForTypes id .BOTH [] = 0 ∧
    s.NodeGetRelationshipsIdsByIdForDirectionForTypes id .BOTH [] = [] := by
  constructor
  · unfold Shard.NodeGetDegreeByIdForDirectionForTypes
    split <;> rfl
  · unfold Shard.NodeGetRelationshipsIdsByIdForDirectionForTypes
    split <;> rfl

/-- C4 (counterexample): on `demoShard`, node 256 has one outgoing
`FRIENDS` edge, so the unfiltered overloads report degree 1 and one
adjacency entry, while `BOTH` with an empty type list reports 0 and the
empty vector — the claimed equivalences fail. -/
theorem both_empty_filter_differs_from_unfiltered :
    demoShard.NodeGetDegreeById 256 = 1 ∧
    demoShard.NodeGetDegreeByIdForDirectionForTypes 256 .BOTH [] = 0 ∧
    demoShard.NodeGetRelationshipsIdsById 256 = [⟨512, 256⟩] ∧
    demoShard.NodeGetRelationshipsIdsByIdForDirectionForTypes 256 .BOTH [] = [] ∧
    demoShard.NodeGetDegreeById 256 ≠
      demoShard.NodeGetDegreeByIdForDirectionForTypes 256 .BOTH [] ∧
    demoShard.NodeGetRelationshipsIdsById 256 ≠
      demoShard.NodeGetRelationshipsIdsByIdForDirectionForTypes 256 .BOTH [] := by
  refine ⟨by decide, by decide, by decide, by decide, by decide, by decide⟩

/-- C1: evaluated at relationship 256 of `demoShardRelProps` (a valid
id whose record holds `since ↦ 2020`, with node `a` at the same internal
index 1 holding no properties), both `RelationshipPropertiesSetFromJson`
and `RelationshipPropertiesResetFromJson` report success yet leave the
relationship's property bag untouched and write the computed map into
the NODE record at internal index 1 instead — `Shard.cpp` lines 1567 and
1604 call `nodes.at(internal_id).setProperties(values)`. -/
theorem relationship_properties_json_writes_node_record :
    demoRelSetFromJson.2 = true ∧
    (demoRelSetFromJson.1.relAt 1).properties = [("since", .pint 2020)] ∧
    bagFind (demoRelSetFromJson.1.relAt 1).properties "weight" = none ∧
    (demoRelSetFromJson.1.nodeAt 1).properties =
      [("since", .pint 2020), ("weight", .pint 1)] ∧
    demoRelResetFromJson.2 = true ∧
    (demoRelResetFromJson.1.relAt 1).properties = [("since", .pint 2020)] ∧
    (demoRelResetFromJson.1.nodeAt 1).properties = [("weight", .pint 1)] ∧
    (demoShardRelProps.nodeAt 1).properties = [] :=
  ⟨rfl, rfl, rfl, rfl, rfl, rfl, rfl, rfl⟩

/-- C2: evaluated at `demoShard`, removing node 512 (which has one
incoming `FRIENDS` edge whose relationship record lives at internal
index 1, external id 256) succeeds, but the incoming sweep of
`NodeRemove` inserts the EXTERNAL id 256 into `deleted_relationships`
(`Shard.cpp` line 540 adds `ids.rel_id` where the outgoing sweep at line
503 adds `externalToInternal(ids.rel_id)`).  The recycled set thus holds
256 while the relationship vector has length 2, violating the invariant
that every member is an internal index `1 ≤ i < len` holding the zero
entity — the next allocation would reuse `minimum() = 256` as a vector
index. -/
theorem node_remove_inserts_external_id_into_deleted_relationships :
    (demoShard.NodeRemoveById 512).map (fun p => p.2) = some true ∧
    (demoShard.NodeRemoveById 512).map (fun p => p.1.deleted_relationships)
      = some [256] ∧
    (demoShard.NodeRemoveById 512).map (fun p => p.1.relationships.length)
      = some 2 ∧
    externalToInternal 256 = 1 ∧
    ¬(256 < 2) :=
  ⟨rfl, rfl, rfl, rfl, by decide⟩

/-- C8: `NodeGet(0)` returns the zero entity and `NodeRemove(0)` returns
`false` leaving the shard untouched, and `NodeRemove(type, key)` returns
`false` for an unknown type — but for a registered type with an absent
key the source dereferences `key_search->second` without a presence
check (`Shard.cpp` line 482, unlike `NodeGetID`), reading past the
per-type key index; the embedding marks that reached end-iterator
dereference as `none`.  Evaluated on `demoShard`, whose type `Node`
holds keys `a` and `b` only. -/
theorem node_remove_absent_key_dereference :
    demoShard.NodeGetById 0 = {} ∧
    demoShard.NodeRemoveById 0 = some (demoShard, false) ∧
    demoShard.NodeRemoveByKey "Nope" "x" = some (demoShard, false) ∧
    demoShard.NodeRemoveByKey "Node" "absent" = none :=
  ⟨rfl, rfl, rfl, rfl⟩

/-- C3 (counterexample): node 256 of `demoShardNodeProps` holds
`age ↦ 1`; `NodePropertiesSet` with `m = {age ↦ 2}` reports success and
leaves `age ↦ 2` — `value.merge(values)` keeps `value`'s (the
argument's) entry for a key present on both sides, so the previous value
of an existing key is NOT retained as the claim states. -/
theorem node_properties_set_overwrites_existing_key :
    bagFind (demoShardNodeProps.nodeAt 1).properties "age"
      = some (.pint 1) ∧
    (demoShardNodeProps.NodePropertiesSet 256 [("age", .pint 2)]).2 = true ∧
    bagFind ((demoShardNodeProps.NodePropertiesSet 256
        [("age", .pint 2)]).1.nodeAt 1).properties "age" = some (.pint 2) ∧
    some (PVal.pint 2) ≠ some (PVal.pint 1) :=
  ⟨rfl, rfl, rfl, by simp⟩

/-- C3 (amended): for a valid node id, `NodePropertiesSetFromJson` obeys
the claimed merge — every key already present keeps its previous value
(the lookup takes the old bag first) and only payload keys not present
before are added; the map-based `NodePropertiesSet` and
`RelationshipPropertiesSet` instead resolve a key present on both sides
to `m`'s NEW value, retaining old values only for keys absent from `m`
(`value.merge(values)` splices old entries into the argument map without
touching its own). -/
theorem properties_set_merge_semantics (s : Shard) (nid rid : Nat) (o : JObj)
    (m : List (String × PVal)) (k : String)
    (hn : s.ValidNodeId nid = true) (hr : s.ValidRelationshipId rid = true) :
    bagFind ((s.NodePropertiesSetFromJson nid (.obj o)).1.nodeAt
        (externalToInternal nid)).properties k
      = oElse (bagFind (s.nodeAt (externalToInternal nid)).properties k)
          (bagFind (convertProperties [] o) k) ∧
    bagFind ((s.NodePropertiesSet nid m).1.nodeAt
        (externalToInternal nid)).properties k
      = oElse (bagFind m k)
          (bagFind (s.nodeAt (externalToInternal nid)).properties k) ∧
    bagFind ((s.RelationshipPropertiesSet rid m).1.relAt
        (externalToInternal rid)).properties k
      = oElse (bagFind m k)
          (bagFind (s.relAt (externalToInternal rid)).properties k) := by
  have hnlen : externalToInternal nid < s.nodes.length := by
    simp [Shard.ValidNodeId, Bool.and_eq_true, decide_eq_true_eq] at hn
    exact hn.1.2
  have hrlen : externalToInternal rid < s.relationships.length := by
    simp [Shard.ValidRelationshipId, Bool.and_eq_true, decide_eq_true_eq] at hr
    exact hr.1.2
  refine ⟨?_, ?_, ?_⟩
  · unfold Shard.NodePropertiesSetFromJson
    split
    · simp only [parseInto, Shard.nodeAt, setPropertiesVec]
      rw [getD_set_self _ _ _ _ hnlen]
      rw [bagFind_convertProperties, bagFind_getPropertyMap]
    · simp_all
  · unfold Shard.NodePropertiesSet
    split
    · simp only [Shard.nodeAt, setPropertiesVec]
      rw [getD_set_self _ _ _ _ hnlen]
      rw [bagFind_stdMerge, bagFind_getPropertyMap]
    · simp_all
  · unfold Shard.RelationshipPropertiesSet
    split
    · simp only [Shard.relAt, setPropertiesVec]
      rw [getD_set_self _ _ _ _ hrlen]
      rw [bagFind_stdMerge, bagFind_getPropertyMap]
    · simp_all

/-- C3 (witness): the merge-semantics theorem applied on
`demoShardNodeProps` at node 256 and relationship 256 with the key
`age`. -/
theorem properties_set_merge_semantics_witness :
    (demoShardNodeProps.ValidNodeId 256 = true ∧
     demoShardNodeProps.ValidRelationshipId 256 = true) ∧
    (bagFind ((demoShardNodeProps.NodePropertiesSetFromJson 256
        (.obj (.cons "age" (.jint 9) .nil))).1.nodeAt
        (externalToInternal 256)).properties "age"
      = oElse (bagFind (demoShardNodeProps.nodeAt
            (externalToInternal 256)).properties "age")
          (bagFind (convertProperties [] (.cons "age" (.jint 9) .nil)) "age") ∧
    bagFind ((demoShardNodeProps.NodePropertiesSet 256
        [("age", .pint 9)]).1.nodeAt (externalToInternal 256)).properties "age"
      = oElse (bagFind [("age", PVal.pint 9)] "age")
          (bagFind (demoShardNodeProps.nodeAt
            (externalToInternal 256)).properties "age") ∧
    bagFind ((demoShardNodeProps.RelationshipPropertiesSet 256
        [("age", .pint 9)]).1.relAt (externalToInternal 256)).properties "age"
      = oElse (bagFind [("age", PVal.pint 9)] "age")
          (bagFind (demoShardNodeProps.relAt
            (externalToInternal 256)).properties "age")) :=
  ⟨⟨by decide, by decide⟩,
   properties_set_merge_semantics demoShardNodeProps 256 256
     (.cons "age" (.jint 9) .nil) [("age", .pint 9)] "age"
     (by decide) (by decide)⟩

/-- C7: `NodeAdd` returns `(s, 0)` — id 0 with the shard state
unchanged — when the type name has no key index (unregistered type),
when the `(type, key)` pair already has an entry, or when the property
payload fails to parse; when the type is registered, the key is free and
the payload parses, it returns a non-zero external id (the allocated
internal index is at least 1: either the vector length, with the zero
entity occupying slot 0, or the minimum of the deleted set, whose
members the node paths only ever draw from positive internal
indices). -/
theorem node_add_error_spec (s : Shard) (type : String) (node_type : Nat)
    (key : String) (properties : Payload) :
    (bagFind s.node_keys type = none →
       s.NodeAdd type node_type key properties = (s, 0)) ∧
    (∀ km, bagFind s.node_keys type = some km →
       (bagFind km key).isSome = true →
       s.NodeAdd type node_type key properties = (s, 0)) ∧
    (properties = .malformed →
       s.NodeAdd type node_type key properties = (s, 0)) ∧
    (∀ km, bagFind s.node_keys type = some km → bagFind km key = none →
       properties ≠ .malformed → 1 ≤ s.nodes.length →
       (∀ x ∈ s.deleted_nodes, 1 ≤ x) →
       (s.NodeAdd type node_type key properties).2 ≠ 0) := by
  refine ⟨?_, ?_, ?_, ?_⟩
  · intro h
    simp [Shard.NodeAdd, h]
  · intro km h hk
    simp [Shard.NodeAdd, h, hk]
  · intro hp
    subst hp
    cases hfind : bagFind s.node_keys type with
    | none => simp [Shard.NodeAdd, hfind]
    | some km =>
      by_cases hk : (bagFind km key).isSome
      · simp [Shard.NodeAdd, hfind, hk]
      · simp [Shard.NodeAdd, hfind, hk, parseInto]
  · intro km h hk hp h1 hd
    have hks : (bagFind km key).isSome = false := by simp [hk]
    have hfini : ∀ o' : Option (List (String × PVal)),
        parseInto [] properties = o' → o'.isSome = true →
        (s.NodeAdd type node_type key properties).2 ≠ 0 := by
      intro o' ho' _
      cases properties with
      | malformed => exact absurd rfl hp
      | empty =>
        simp only [Shard.NodeAdd, h, hks, parseInto, Bool.false_eq_true,
          if_false]
        by_cases hde : s.deleted_nodes.isEmpty
        · simp [hde, Shard.internalToExternal]
          intro hnil
          rw [hnil] at h1
          simp at h1
        · simp only [Bool.not_eq_true] at hde
          simp [hde, Shard.internalToExternal]
          have hne : s.deleted_nodes ≠ [] := by
            cases hdn : s.deleted_nodes with
            | nil => rw [hdn] at hde; exact absurd hde (by simp)
            | cons a b => simp
          have hmin := rMin_ge_one s.deleted_nodes hne hd
          omega
      | obj o =>
        simp only [Shard.NodeAdd, h, hks, parseInto, Bool.false_eq_true,
          if_false]
        by_cases hde : s.deleted_nodes.isEmpty
        · simp [hde, Shard.internalToExternal]
          intro hnil
          rw [hnil] at h1
          simp at h1
        · simp only [Bool.not_eq_true] at hde
          simp [hde, Shard.internalToExternal]
          have hne : s.deleted_nodes ≠ [] := by
            cases hdn : s.deleted_nodes with
            | nil => rw [hdn] at hde; exact absurd hde (by simp)
            | cons a b => simp
          have hmin := rMin_ge_one s.deleted_nodes hne hd
          omega
    refine hfini (parseInto [] properties) rfl ?_
    cases properties with
    | malformed => exact absurd rfl hp
    | empty => rfl
    | obj o => rfl

/-- C7 (witness): on `demoShard` — duplicate key `(Node, a)` yields id 0
with the state unchanged, unknown type `User` yields id 0, a malformed
payload yields id 0, and the fresh key `(Node, c)` yields a non-zero
id. -/
theorem node_add_error_spec_witness :
    (bagFind demoShard.node_keys "Node" = some [("a", 256), ("b", 512)] ∧
     (bagFind [("a", 256), ("b", 512)] "a").isSome = true ∧
     bagFind demoShard.node_keys "User" = none ∧
     bagFind [("a", 256), ("b", 512)] "c" = none ∧
     (Payload.empty ≠ Payload.malformed) ∧
     1 ≤ demoShard.nodes.length ∧
     (∀ x ∈ demoShard.deleted_nodes, 1 ≤ x)) ∧
    demoShard.NodeAdd "Node" 1 "a" .empty = (demoShard, 0) ∧
    demoShard.NodeAdd "User" 1 "x" .empty = (demoShard, 0) ∧
    demoShard.NodeAdd "Node" 1 "c" .malformed = (demoShard, 0) ∧
    (demoShard.NodeAdd "Node" 1 "c" .empty).2 ≠ 0 := by
  refine ⟨⟨rfl, rfl, rfl, rfl, by simp, by decide, by decide⟩, ?_, ?_, ?_, ?_⟩
  · exact (node_add_error_spec demoShard "Node" 1 "a" .empty).2.1
      [("a", 256), ("b", 512)] rfl rfl
  · exact (node_add_error_spec demoShard "User" 1 "x" .empty).1 rfl
  · exact (node_add_error_spec demoShard "Node" 1 "c" .malformed).2.2.1 rfl
  · exact (node_add_error_spec demoShard "Node" 1 "c" .empty).2.2.2
      [("a", 256), ("b", 512)] rfl rfl (by simp) (by decide) (by decide)

theorem setAt_shards_length (g : Graph) (j : Nat) (sh : Shard) :
    (g.setAt j sh).shards.length = g.shards.length := by
  simp [Graph.setAt]

theorem at_setAt_self (g : Graph) (j : Nat) (sh : Shard)
    (h : j < g.shards.length) : (g.setAt j sh).at j = sh := by
  unfold Graph.setAt Graph.at
  exact getD_set_self _ _ _ _ h

theorem at_setAt_ne (g : Graph) (j i : Nat) (sh : Shard)
    (h : j ≠ i) : (g.setAt j sh).at i = g.at i := by
  unfold Graph.setAt Graph.at
  exact getD_set_ne _ _ _ _ _ h

/-- C5: for a cross-shard `RelationshipAddEmptyPeered` with a known type
id, if either endpoint is invalid on its owning shard the call returns
`(g, 0)` — id 0 and no shard mutated, so no relationship record or
adjacency entry exists; if both are valid, the returned id is exactly
the external id allocated by the outgoing half on the starting node's
shard, the ending node's shard gains precisely the incoming adjacency
entry `⟨id1, that id⟩`, and the starting node's shard holds the outgoing
half's state. -/
theorem relationship_add_empty_peered_spec (g : Graph)
    (caller rel_type_id id1 id2 : Nat)
    (htype : (g.at caller).relationship_types.ValidTypeId rel_type_id = true)
    (hne : CalculateShardId id1 ≠ CalculateShardId id2)
    (hs1 : CalculateShardId id1 < g.shards.length)
    (hs2 : CalculateShardId id2 < g.shards.length)
    (hlen2 : externalToInternal id2 <
      (g.at (CalculateShardId id2)).incoming_relationships.length) :
    (¬((g.at (CalculateShardId id1)).ValidNodeId id1 = true ∧
       (g.at (CalculateShardId id2)).ValidNodeId id2 = true) →
      g.RelationshipAddEmptyPeered caller rel_type_id id1 id2 = (g, 0)) ∧
    ((g.at (CalculateShardId id1)).ValidNodeId id1 = true →
     (g.at (CalculateShardId id2)).ValidNodeId id2 = true →
      (g.RelationshipAddEmptyPeered caller rel_type_id id1 id2).2 =
        ((g.at (CalculateShardId id1)).RelationshipAddEmptyToOutgoing
          rel_type_id id1 id2).2 ∧
      ((g.RelationshipAddEmptyPeered caller rel_type_id id1 id2).1.at
          (CalculateShardId id2)).inAt (externalToInternal id2) =
        addToGroups
          ((g.at (CalculateShardId id2)).inAt (externalToInternal id2))
          rel_type_id
          ⟨id1, ((g.at (CalculateShardId id1)).RelationshipAddEmptyToOutgoing
            rel_type_id id1 id2).2⟩ ∧
      (g.RelationshipAddEmptyPeered caller rel_type_id id1 id2).1.at
          (CalculateShardId id1) =
        ((g.at (CalculateShardId id1)).RelationshipAddEmptyToOutgoing
          rel_type_id id1 id2).1) := by
  constructor
  · intro hinv
    unfold Graph.RelationshipAddEmptyPeered
    rw [if_pos htype, if_neg]
    intro hb
    rw [Bool.and_eq_true] at hb
    exact hinv hb
  · intro h1 h2
    unfold Graph.RelationshipAddEmptyPeered
    rw [if_pos htype, if_pos (by rw [Bool.and_eq_true]; exact ⟨h1, h2⟩)]
    refine ⟨rfl, ?_, ?_⟩
    · rw [at_setAt_self]
      · simp only [Shard.RelationshipAddToIncoming, Shard.inAt]
        rw [at_setAt_ne _ _ _ _ hne]
        exact getD_set_self _ _ _ _ hlen2
      · rw [setAt_shards_length]
        exact hs2
    · rw [at_setAt_ne _ _ _ _ (fun hx => hne hx.symm)]
      exact at_setAt_self _ _ _ hs1

/-- C5 (witness): the peered-add theorem applied to `demoGraph2` — node
`u` = 256 on shard 0, node `v` = 257 on shard 1, type `KNOWS` = 1. -/
theorem relationship_add_empty_peered_spec_witness :
    ((demoGraph2.at 0).relationship_types.ValidTypeId 1 = true ∧
     CalculateShardId 256 ≠ CalculateShardId 257 ∧
     CalculateShardId 256 < demoGraph2.shards.length ∧
     CalculateShardId 257 < demoGraph2.shards.length ∧
     externalToInternal 257 <
       (demoGraph2.at (CalculateShardId 257)).incoming_relationships.length ∧
     (demoGraph2.at (CalculateShardId 256)).ValidNodeId 256 = true ∧
     (demoGraph2.at (CalculateShardId 257)).ValidNodeId 257 = true) ∧
    ((demoGraph2.RelationshipAddEmptyPeered 0 1 256 257).2 =
       ((demoGraph2.at (CalculateShardId 256)).RelationshipAddEmptyToOutgoing
         1 256 257).2 ∧
     ((demoGraph2.RelationshipAddEmptyPeered 0 1 256 257).1.at
         (CalculateShardId 257)).inAt (externalToInternal 257) =
       addToGroups
         ((demoGraph2.at (CalculateShardId 257)).inAt (externalToInternal 257))
         1 ⟨256, ((demoGraph2.at
             (CalculateShardId 256)).RelationshipAddEmptyToOutgoing
           1 256 257).2⟩ ∧
     (demoGraph2.RelationshipAddEmptyPeered 0 1 256 257).1.at
         (CalculateShardId 256) =
       ((demoGraph2.at (CalculateShardId 256)).RelationshipAddEmptyToOutgoing
         1 256 257).1) :=
  ⟨⟨by decide, by decide, by decide, by decide, by decide, by decide,
    by decide⟩,
   (relationship_add_empty_peered_spec demoGraph2 0 1 256 257 (by decide)
     (by decide) (by decide) (by decide) (by decide)).2 (by decide)
     (by decide)⟩



theorem set_out_of_range {α : Type} (l : List α) (j : Nat) (a : α)
    (h : l.length ≤ j) : l.set j a = l := by
  induction l generalizing j with
  | nil => rfl
  | cons hd tl ih =>
    cases j with
    | zero => simp at h
    | succ n => simp only [List.set]; rw [ih n (Nat.le_of_succ_le_succ h)]

theorem at_setAt_fields (g : Graph) (j : Nat) (sh : Shard) (i : Nat)
    (hn : sh.nodes = (g.at j).nodes)
    (hd : sh.deleted_nodes = (g.at j).deleted_nodes)
    (hk : sh.node_keys = (g.at j).node_keys) :
    ((g.setAt j sh).at i).nodes = (g.at i).nodes ∧
    ((g.setAt j sh).at i).deleted_nodes = (g.at i).deleted_nodes ∧
    ((g.setAt j sh).at i).node_keys = (g.at i).node_keys := by
  by_cases hij : j = i
  · subst hij
    by_cases hlt : j < g.shards.length
    · rw [at_setAt_self _ _ _ hlt]
      exact ⟨hn, hd, hk⟩
    · have hid : g.setAt j sh = g := by
        unfold Graph.setAt
        rw [set_out_of_range _ _ _ (Nat.le_of_not_lt hlt)]
      rw [hid]
      exact ⟨rfl, rfl, rfl⟩
  · rw [at_setAt_ne _ _ _ _ hij]
    exact ⟨rfl, rfl, rfl⟩

theorem foldl_shard_frame {β : Type} (f : Shard → β → Shard)
    (hf : ∀ s b, (f s b).nodes = s.nodes ∧
      (f s b).deleted_nodes = s.deleted_nodes ∧
      (f s b).node_keys = s.node_keys) :
    ∀ (l : List β) (s : Shard),
      (l.foldl f s).nodes = s.nodes ∧
      (l.foldl f s).deleted_nodes = s.deleted_nodes ∧
      (l.foldl f s).node_keys = s.node_keys := by
  intro l
  induction l with
  | nil => intro s; exact ⟨rfl, rfl, rfl⟩
  | cons hd tl ih =>
    intro s
    have h1 := hf s hd
    have h2 := ih (f s hd)
    exact ⟨h2.1.trans h1.1, h2.2.1.trans h1.2.1, h2.2.2.trans h1.2.2⟩

theorem nodeRemoveDeleteIncoming_frame (s : Shard) (e : Nat)
    (gr : List (Nat × List Nat)) :
    (s.NodeRemoveDeleteIncoming e gr).1.nodes = s.nodes ∧
    (s.NodeRemoveDeleteIncoming e gr).1.deleted_nodes = s.deleted_nodes ∧
    (s.NodeRemoveDeleteIncoming e gr).1.node_keys = s.node_keys := by
  unfold Shard.NodeRemoveDeleteIncoming
  refine foldl_shard_frame _ ?_ gr s
  intro acc kv
  refine foldl_shard_frame _ ?_ kv.2 acc
  intro a n
  exact ⟨rfl, rfl, rfl⟩

theorem nodeRemoveDeleteOutgoing_frame (s : Shard) (e : Nat)
    (gr : List (Nat × List Nat)) :
    (s.NodeRemoveDeleteOutgoing e gr).1.nodes = s.nodes ∧
    (s.NodeRemoveDeleteOutgoing e gr).1.deleted_nodes = s.deleted_nodes ∧
    (s.NodeRemoveDeleteOutgoing e gr).1.node_keys = s.node_keys := by
  unfold Shard.NodeRemoveDeleteOutgoing
  refine foldl_shard_frame _ ?_ gr s
  intro acc kv
  refine foldl_shard_frame _ ?_ kv.2 acc
  intro a n
  cases hfind : findGroup (a.outAt (externalToInternal n)) kv.1 with
  | none => simp [hfind]
  | some grp =>
    simp only [hfind]
    refine ⟨(foldl_shard_frame _ ?_ grp.ids a).1,
            (foldl_shard_frame _ ?_ grp.ids a).2.1,
            (foldl_shard_frame _ ?_ grp.ids a).2.2⟩ <;>
      (intro a' ent; split <;> exact ⟨rfl, rfl, rfl⟩)

theorem foldl_incomingLegStep_snd (e : Nat) (f : Nat → Bool)
    (l : List (Nat × List (Nat × List Nat))) :
    ∀ (g : Graph) (b : Bool),
      (l.foldl (incomingLegStep e f) (g, b)).2 =
        (b || l.any (fun kv => f kv.1)) := by
  induction l with
  | nil => intro g b; simp
  | cons hd tl ih =>
    intro g b
    simp only [List.foldl_cons, List.any_cons]
    by_cases hf : f hd.1 = true
    · have hstep : incomingLegStep e f (g, b) hd = (g, true) := by
        simp [incomingLegStep, hf]
      rw [hstep, ih]
      simp [hf]
    · have hstep : incomingLegStep e f (g, b) hd =
          (g.setAt hd.1 ((g.at hd.1).NodeRemoveDeleteIncoming e hd.2).1, b) := by
        simp [incomingLegStep, hf]
      rw [hstep, ih]
      simp [hf]

theorem foldl_outgoingLegStep_snd (e : Nat) (f : Nat → Bool)
    (l : List (Nat × List (Nat × List Nat))) :
    ∀ (g : Graph) (b : Bool),
      (l.foldl (outgoingLegStep e f) (g, b)).2 =
        (b || l.any (fun kv => f kv.1)) := by
  induction l with
  | nil => intro g b; simp
  | cons hd tl ih =>
    intro g b
    simp only [List.foldl_cons, List.any_cons]
    by_cases hf : f hd.1 = true
    · have hstep : outgoingLegStep e f (g, b) hd = (g, true) := by
        simp [outgoingLegStep, hf]
      rw [hstep, ih]
      simp [hf]
    · have hstep : outgoingLegStep e f (g, b) hd =
          (g.setAt hd.1 ((g.at hd.1).NodeRemoveDeleteOutgoing e hd.2).1, b) := by
        simp [outgoingLegStep, hf]
      rw [hstep, ih]
      simp [hf]

theorem foldl_incomingLegStep_frame (e : Nat) (f : Nat → Bool)
    (l : List (Nat × List (Nat × List Nat))) :
    ∀ (p : Graph × Bool) (i : Nat),
      ((l.foldl (incomingLegStep e f) p).1.at i).nodes = (p.1.at i).nodes ∧
      ((l.foldl (incomingLegStep e f) p).1.at i).deleted_nodes =
        (p.1.at i).deleted_nodes ∧
      ((l.foldl (incomingLegStep e f) p).1.at i).node_keys =
        (p.1.at i).node_keys := by
  induction l with
  | nil => intro p i; exact ⟨rfl, rfl, rfl⟩
  | cons hd tl ih =>
    intro p i
    rw [List.foldl_cons]
    have hstep : ((incomingLegStep e f p hd).1.at i).nodes = (p.1.at i).nodes ∧
        ((incomingLegStep e f p hd).1.at i).deleted_nodes =
          (p.1.at i).deleted_nodes ∧
        ((incomingLegStep e f p hd).1.at i).node_keys =
          (p.1.at i).node_keys := by
      unfold incomingLegStep
      split
      · exact ⟨rfl, rfl, rfl⟩
      · exact at_setAt_fields _ _ _ i
          (nodeRemoveDeleteIncoming_frame _ _ _).1
          (nodeRemoveDeleteIncoming_frame _ _ _).2.1
          (nodeRemoveDeleteIncoming_frame _ _ _).2.2
    have h2 := ih (incomingLegStep e f p hd) i
    exact ⟨h2.1.trans hstep.1, h2.2.1.trans hstep.2.1, h2.2.2.trans hstep.2.2⟩

theorem foldl_outgoingLegStep_frame (e : Nat) (f : Nat → Bool)
    (l : List (Nat × List (Nat × List Nat))) :
    ∀ (p : Graph × Bool) (i : Nat),
      ((l.foldl (outgoingLegStep e f) p).1.at i).nodes = (p.1.at i).nodes ∧
      ((l.foldl (outgoingLegStep e f) p).1.at i).deleted_nodes =
        (p.1.at i).deleted_nodes ∧
      ((l.foldl (outgoingLegStep e f) p).1.at i).node_keys =
        (p.1.at i).node_keys := by
  induction l with
  | nil => intro p i; exact ⟨rfl, rfl, rfl⟩
  | cons hd tl ih =>
    intro p i
    rw [List.foldl_cons]
    have hstep : ((outgoingLegStep e f p hd).1.at i).nodes = (p.1.at i).nodes ∧
        ((outgoingLegStep e f p hd).1.at i).deleted_nodes =
          (p.1.at i).deleted_nodes ∧
        ((outgoingLegStep e f p hd).1.at i).node_keys =
          (p.1.at i).node_keys := by
      unfold outgoingLegStep
      split
      · exact ⟨rfl, rfl, rfl⟩
      · exact at_setAt_fields _ _ _ i
          (nodeRemoveDeleteOutgoing_frame _ _ _).1
          (nodeRemoveDeleteOutgoing_frame _ _ _).2.1
          (nodeRemoveDeleteOutgoing_frame _ _ _).2.2
    have h2 := ih (outgoingLegStep e f p hd) i
    exact ⟨h2.1.trans hstep.1, h2.2.1.trans hstep.2.1, h2.2.2.trans hstep.2.2⟩

theorem nodeRemovePeered_eq (g : Graph) (caller external_id : Nat)
    (incFail outFail : Nat → Bool)
    (hv : (g.at (CalculateShardId external_id)).ValidNodeId external_id
      = true) :
    g.NodeRemovePeered caller external_id incFail outFail =
      (if nodeRemoveAnyLegFailed g caller external_id incFail outFail then
        some (nodeRemoveAfterLegs g caller external_id incFail outFail, false)
      else
        match (( nodeRemoveAfterLegs g caller external_id incFail
            outFail).at (CalculateShardId external_id)).NodeRemoveById
            external_id with
        | none => none
        | some pr =>
          some ((nodeRemoveAfterLegs g caller external_id incFail
            outFail).setAt (CalculateShardId external_id) pr.1, pr.2)) := by
  simp only [Graph.NodeRemovePeered, nodeRemoveAnyLegFailed,
    nodeRemoveAfterLegs, nodeRemoveOutMap, nodeRemoveAfterIncLegs,
    nodeRemoveIncMap, hv, if_true]
  rw [foldl_incomingLegStep_snd, foldl_outgoingLegStep_snd]
  simp only [Bool.false_or]



/-- C6: in the cross-shard node-remove protocol, when every fan-out leg
resolves successfully the local remove on the owning shard runs on the
legs-applied graph (and only then); when any leg fails the call returns
`false`, the returned graph is exactly the legs-applied one — completed
legs stand, nothing is rolled back — and no shard's node vector, free
list or key index has changed, so the node's slot is not freed. -/
theorem node_remove_peered_failure_spec (g : Graph) (caller external_id : Nat)
    (incFail outFail : Nat → Bool)
    (hv : (g.at (CalculateShardId external_id)).ValidNodeId external_id
      = true) :
    (nodeRemoveAnyLegFailed g caller external_id incFail outFail = true →
      g.NodeRemovePeered caller external_id incFail outFail =
        some (nodeRemoveAfterLegs g caller external_id incFail outFail,
          false) ∧
      ∀ i,
        ((nodeRemoveAfterLegs g caller external_id incFail outFail).at
            i).nodes = (g.at i).nodes ∧
        ((nodeRemoveAfterLegs g caller external_id incFail outFail).at
            i).deleted_nodes = (g.at i).deleted_nodes ∧
        ((nodeRemoveAfterLegs g caller external_id incFail outFail).at
            i).node_keys = (g.at i).node_keys) ∧
    (nodeRemoveAnyLegFailed g caller external_id incFail outFail = false →
      g.NodeRemovePeered caller external_id incFail outFail =
        (match ((nodeRemoveAfterLegs g caller external_id incFail
            outFail).at (CalculateShardId external_id)).NodeRemoveById
            external_id with
         | none => none
         | some pr =>
           some ((nodeRemoveAfterLegs g caller external_id incFail
             outFail).setAt (CalculateShardId external_id) pr.1, pr.2))) := by
  constructor
  · intro hfail
    constructor
    · rw [nodeRemovePeered_eq g caller external_id incFail outFail hv,
        if_pos hfail]
    · intro i
      have hout := foldl_outgoingLegStep_frame external_id outFail
        (nodeRemoveOutMap g caller external_id incFail)
        (nodeRemoveAfterIncLegs g external_id incFail, false) i
      have hinc := foldl_incomingLegStep_frame external_id incFail
        (nodeRemoveIncMap g external_id) (g, false) i
      exact ⟨hout.1.trans hinc.1, hout.2.1.trans hinc.2.1,
        hout.2.2.trans hinc.2.2⟩
  · intro hok
    rw [nodeRemovePeered_eq g caller external_id incFail outFail hv,
      if_neg (by simp [hok])]

/-- C6 (witness): on `demoGraph3Edges` (node 256 on shard 0 with a
`KNOWS` edge to 257 on shard 1 and a `LIKES` edge to 258 on shard 2),
failing one incoming leg makes the remove return `false` with node 256's
slot intact, while the completed leg's effect — shard 1's stripped
incoming entry — is retained and the failed leg's shard 2 still holds
its entry; with no failures the remove returns `true` and frees slot
1. -/
theorem node_remove_peered_failure_spec_witness :
    ((demoGraph3Edges.at (CalculateShardId 256)).ValidNodeId 256 = true ∧
     nodeRemoveAnyLegFailed demoGraph3Edges 0 256 (fun sh => sh == 2)
       (fun _ => false) = true) ∧
    (demoGraph3Edges.NodeRemovePeered 0 256 (fun sh => sh == 2)
        (fun _ => false) =
      some (nodeRemoveAfterLegs demoGraph3Edges 0 256 (fun sh => sh == 2)
        (fun _ => false), false) ∧
     ∀ i,
       ((nodeRemoveAfterLegs demoGraph3Edges 0 256 (fun sh => sh == 2)
           (fun _ => false)).at i).nodes = (demoGraph3Edges.at i).nodes ∧
       ((nodeRemoveAfterLegs demoGraph3Edges 0 256 (fun sh => sh == 2)
           (fun _ => false)).at i).deleted_nodes =
         (demoGraph3Edges.at i).deleted_nodes ∧
       ((nodeRemoveAfterLegs demoGraph3Edges 0 256 (fun sh => sh == 2)
           (fun _ => false)).at i).node_keys =
         (demoGraph3Edges.at i).node_keys) ∧
    ((demoGraph3Edges.NodeRemovePeered 0 256 (fun sh => sh == 2)
        (fun _ => false)).map (fun p => (p.1.at 1).inAt 1)
      = some [⟨1, []⟩] ∧
     (demoGraph3Edges.NodeRemovePeered 0 256 (fun sh => sh == 2)
        (fun _ => false)).map (fun p => (p.1.at 2).inAt 1)
      = some [⟨2, [⟨256, 512⟩]⟩] ∧
     (demoGraph3Edges.NodeRemovePeered 0 256 (fun _ => false)
        (fun _ => false)).map (fun p => p.2) = some true ∧
     (demoGraph3Edges.NodeRemovePeered 0 256 (fun _ => false)
        (fun _ => false)).map (fun p => (p.1.at 0).deleted_nodes)
      = some [1]) :=
  ⟨⟨by decide, by decide⟩,
   (node_remove_peered_failure_spec demoGraph3Edges 0 256 (fun sh => sh == 2)
     (fun _ => false) (by decide)).1 (by decide),
   by decide, by decide, by decide, by decide⟩

end Triton
